import Mathlib

/-
  Verification of the frame-extractor orchestration core.

  Shallow embedding of:
  - src/src/workers/ffmpeg.worker.ts        (FFmpeg universal adapter worker)
  - src/src/workers/imageDecoder.worker.ts  (ImageDecoder adapter worker)
  - src/src/components/ProcessingController.tsx (engine selection and fallback)
  - src/unnamed/part_014                    (capability probe + optimal engine selection)
  - src/src/lib/estimate.ts                 (sniffTrueType byte sniffer)

  Conventions of the embedding:
  - Worker output messages become the inductive Msg; binary payloads (Blob
    contents, object URLs) and timestamps are opaque to every claim and are
    omitted from the message model.  PROGRESS messages of the FFmpeg worker
    (produced by the ffmpeg.on progress/log callbacks during exec) are likewise
    omitted: no claim mentions them.
  - The ffmpeg.exec black box is modelled by its documented contract: with an
    output pattern frame_%06d.ext it writes files numbered from 000001, and
    with -frames:v M it stops after M frames.  naturalFrames is the frame
    count the command would produce without the -frames:v cap.
  - The module-level cancelled flag is set by the CANCEL handler while
    extractFrames awaits; cancelPoint = some k means the flag became true
    after exactly k iterations of the read loop had completed (the loop
    checks the flag at the top of each iteration and breaks).  none means
    the flag stayed false for the whole job.  The CANCEL handler additionally
    calls self.close, which only suppresses further messages; the flag-only
    model is the weaker one, so guarantees proved here also hold for the
    real worker.
-/

/-- Little-endian decimal digits of n, with explicit structural fuel so the
kernel can evaluate it (fuel n is always enough since n / 10 < n). -/
def natDigitsAux : Nat → Nat → List Nat
  | 0, _ => []
  | _ + 1, 0 => []
  | fuel + 1, n + 1 => (n + 1) % 10 :: natDigitsAux fuel ((n + 1) / 10)

/-- Little-endian decimal digits of a Nat (empty for 0). -/
def natDigitsLE (n : Nat) : List Nat := natDigitsAux n n

/-- Value of a little-endian digit list. -/
def digitsValLE (ds : List Nat) : Nat := ds.foldr (fun d acc => d + 10 * acc) 0

/-- parseInt on a big-endian digit string (the \d+ capture of the
frame_(\d+) regex in the worker): leading zeros are ignored. -/
def parseBE (ds : List Nat) : Nat := digitsValLE ds.reverse

/-- The %06d / String(i).padStart(6, zero) formatting used for output
filenames: big-endian digits left-padded with zeros to width 6. -/
def format6 (n : Nat) : List Nat :=
  List.replicate (6 - (natDigitsLE n).length) 0 ++ (natDigitsLE n).reverse

/-- JS Math.round(done / total * 100) for Nats (round half up). -/
def jsRoundPercent (done total : Nat) : Nat := (200 * done + total) / (2 * total)

/-- Messages a worker posts to the controller.  frame carries the index field
and the numeric field of the suggested filename; partReady carries partIndex,
totalParts, startFrame, endFrame. -/
inductive Msg where
  | frame (index : Nat) (fnameDigits : List Nat)
  | partReady (partIndex totalParts startFrame endFrame : Nat)
  | complete (totalFrames : Nat)
  | progress (frames percent : Nat)
  | error (msg : String)
deriving DecidableEq

def Msg.isFrame : Msg → Bool
  | Msg.frame _ _ => true
  | _ => false

def Msg.isPartReady : Msg → Bool
  | Msg.partReady _ _ _ _ => true
  | _ => false

def Msg.isComplete : Msg → Bool
  | Msg.complete _ => true
  | _ => false

/-- COMPLETE and ERROR are the terminal message kinds of an adapter. -/
def Msg.isTerminal : Msg → Bool
  | Msg.complete _ => true
  | Msg.error _ => true
  | _ => false

/-- Index fields of the FRAME messages of a trace, in emission order. -/
def frameIndices (t : List Msg) : List Nat :=
  t.filterMap fun m =>
    match m with
    | Msg.frame i _ => some i
    | _ => none

/-- (partIndex, totalParts, startFrame, endFrame) of the PART_READY messages
of a trace, in emission order. -/
def partRanges (t : List Msg) : List (Nat × Nat × Nat × Nat) :=
  t.filterMap fun m =>
    match m with
    | Msg.partReady a b c d => some (a, b, c, d)
    | _ => none

def countComplete (t : List Msg) : Nat := t.countP fun m => m.isComplete

def countTerminal (t : List Msg) : Nat := t.countP fun m => m.isTerminal

/-- split export parameters of ExtractionSettings. -/
structure SplitSettings where
  enabled : Bool
  framesPerPart : Nat
  autoDownload : Bool
deriving DecidableEq

/-- The part of ExtractionSettings the worker-side claims read.  The sampling
mode, time range and scale only shape the ffmpeg command line, whose output
size is the naturalFrames input of the exec black box; outputFormat only
selects the file extension. -/
structure ExtractionSettings where
  maxFrames : Nat
  split : Option SplitSettings
deriving DecidableEq

/-- Frame files left in the worker FS by ffmpeg.exec: the natural frame count
of the command, capped by -frames:v exactly when settings.maxFrames is truthy
(nonzero), per lines 134-136 of ffmpeg.worker.ts. -/
def execOutputCount (naturalFrames maxFrames : Nat) : Nat :=
  if maxFrames ≠ 0 then min naturalFrames maxFrames else naturalFrames

/-- FRAME messages of the ffmpeg worker read loop: the i-th processed file is
frame_%06d with number i+1 (ffmpeg numbers output images from 1), and the
index field is parseInt of the digits captured from the filename. -/
def ffmpegFrameMsgs (processed : Nat) : List Msg :=
  (List.range processed).map fun i =>
    Msg.frame (parseBE (format6 (i + 1))) (format6 (i + 1))

/-- Math.ceil(n / k) on Nats. -/
def ceilDiv (n k : Nat) : Nat := (n + k - 1) / k

/-- PART_READY messages posted after the read loop (ffmpeg.worker.ts lines
183-225): split branch iff split.enabled and framesPerPart > 0, one zip of
everything otherwise. -/
def ffmpegPartMsgs (n : Nat) (s : ExtractionSettings) : List Msg :=
  match s.split with
  | some sp =>
    if sp.enabled = true ∧ 0 < sp.framesPerPart then
      let K := sp.framesPerPart
      let T := ceilDiv n K
      (List.range T).map fun p =>
        Msg.partReady (p + 1) T (p * K) (min (p * K + K) n - 1)
    else [Msg.partReady 1 1 0 (n - 1)]
  | none => [Msg.partReady 1 1 0 (n - 1)]

/-- Messages posted while the ffmpeg worker handles one EXTRACT request
(extractFrames wrapped in the onmessage try/catch that turns a throw into an
ERROR message).  cancelPoint as described in the header comment. -/
def ffmpegExtractTrace (naturalFrames : Nat) (s : ExtractionSettings)
    (cancelPoint : Option Nat) : List Msg :=
  let n := execOutputCount naturalFrames s.maxFrames
  if n = 0 then [Msg.error "No frames were extracted"]
  else
    match cancelPoint with
    | some k => ffmpegFrameMsgs (min k n)
    | none => ffmpegFrameMsgs n ++ ffmpegPartMsgs n s ++ [Msg.complete n]

/-- Outcome of one decoder.decode call inside the main loop of
imageDecoder.worker.ts: a decoded image, a result without an image, or a
rejection (caught by the outer try/catch, which posts ERROR). -/
inductive DecodeOutcome where
  | ok
  | noImage
  | throws (msg : String)
deriving DecidableEq

/-- Inputs of one EXTRACT_IMGDEC request, resolving the environment-dependent
values the worker reads: ImageDecoder/OffscreenCanvas availability, the
lowercased file.type, the track-reported frame count (none when not a finite
number, in which case the linear probe result probeCount is used), the
resolved frame dimensions (track metadata or message metadata), 2d-context
availability, the per-frame decode outcomes of the replay loop, and for each
frame whether its decode outran the 8 s stall watchdog before resolving.
settings is carried because the worker receives it, though the loop reads
only outputFormat (the file extension, not modelled). -/
structure ImgDecInput where
  supports : Bool
  ctxOk : Bool
  mime : String
  trackFrameCount : Option Nat
  probeCount : Nat
  width : Nat
  height : Nat
  settings : ExtractionSettings
  outcomes : Nat → DecodeOutcome
  stalls : Nat → Bool

/-- The regex test on the lowercased type: image/(gif|apng|png|webp) only. -/
def imgDecMimeOk (mime : String) : Bool :=
  mime = "image/gif" || mime = "image/apng" || mime = "image/png" ||
    mime = "image/webp"

/-- Frame count the worker trusts: the track count when it is a finite
number, otherwise the linear-probe bound. -/
def imgDecFrameCount (inp : ImgDecInput) : Nat :=
  match inp.trackFrameCount with
  | some c => c
  | none => inp.probeCount

/-- PROGRESS posting of imageDecoder.worker.ts lines 111-114: every second
frame and on the last frame. -/
def imgDecProgressMsgs (i frameCount : Nat) : List Msg :=
  if (i + 1) % 2 = 0 ∨ i = frameCount - 1 then
    [Msg.progress (i + 1) (jsRoundPercent (i + 1) frameCount)]
  else []

/-- Main decode loop (imageDecoder.worker.ts lines 87-122) with the watchdog
interleaved: wd records whether the watchdog interval is still installed.  If
frame i stalls while the watchdog is alive, the watchdog posts its ERROR and
clears itself, but the loop is NOT stopped; when the pending decode resolves
the iteration continues.  A decode with no image or a rejection ends the
handler with a single ERROR; after the last frame the worker posts COMPLETE
with the trusted frame count.  The loop runs i from 0 while i < frameCount;
fuel = frameCount - i makes that recursion structural, so fuel = 0 is
exactly the loop exit. -/
def imgDecLoop (outcomes : Nat → DecodeOutcome) (stalls : Nat → Bool)
    (frameCount : Nat) : Nat → Nat → Bool → List Msg
  | 0, _, _ => [Msg.complete frameCount]
  | fuel + 1, i, wd =>
    (if stalls i = true ∧ wd = true then
        [Msg.error "ImageDecoder stalled (watchdog)"]
      else []) ++
    (match outcomes i with
     | DecodeOutcome.noImage =>
        [Msg.error ("Decode returned no image @ frame " ++ toString i)]
     | DecodeOutcome.throws m => [Msg.error m]
     | DecodeOutcome.ok =>
        Msg.frame i (format6 i) ::
          (imgDecProgressMsgs i frameCount ++
            imgDecLoop outcomes stalls frameCount fuel (i + 1)
              (wd && !(stalls i))))

/-- Messages posted while the imageDecoder worker handles one EXTRACT_IMGDEC
request (the ID_READY boot message is posted at module load, before any
request, and is not part of the handler trace). -/
def imgDecExtract (inp : ImgDecInput) : List Msg :=
  if inp.supports = false then
    [Msg.error "ImageDecoder/OffscreenCanvas not supported"]
  else if imgDecMimeOk inp.mime = false then
    [Msg.error ("Unsupported type for ImageDecoder: " ++ inp.mime)]
  else if imgDecFrameCount inp = 0 then [Msg.error "No frames detected"]
  else if inp.width = 0 ∨ inp.height = 0 then
    [Msg.error "Could not determine frame size"]
  else if inp.ctxOk = false then [Msg.error "2D canvas unavailable in worker"]
  else
    imgDecLoop inp.outcomes inp.stalls (imgDecFrameCount inp)
      (imgDecFrameCount inp) 0 true

/-- The three engines of processingMode.ts. -/
inductive ProcessingEngine where
  | imageDecoder
  | webcodecs
  | ffmpeg
deriving DecidableEq

/-- engineStatus values of ProcessingController.tsx. -/
inductive EngineStatus where
  | detecting
  | ready
  | processing
  | error
deriving DecidableEq

structure ProcessingCapability where
  engine : ProcessingEngine
  supported : Bool
deriving DecidableEq

/-- Environment answers the capability probe depends on: ImageDecoder
presence and the isTypeSupported result (an Except models a rejeted promise,
caught inside the probe), VideoDecoder presence and the collapsed result of
the candidate-codec loop (whether some isConfigSupported call succeeded with
supported = true; rejections inside the loop are skipped). -/
structure ProbeEnv where
  hasImageDecoder : Bool
  imageTypeSupported : Except String Bool
  hasVideoDecoder : Bool
  codecResults : List (Except String Bool)

/-- detectProcessingCapabilities of part_014: every failure path is caught
and recorded as unsupported; the ffmpeg entry is always pushed with
supported = true. -/
def detectProcessingCapabilities (env : ProbeEnv) : List ProcessingCapability :=
  let imgCap : ProcessingCapability :=
    if env.hasImageDecoder then
      match env.imageTypeSupported with
      | Except.ok b => ⟨ProcessingEngine.imageDecoder, b⟩
      | Except.error _ => ⟨ProcessingEngine.imageDecoder, false⟩
    else ⟨ProcessingEngine.imageDecoder, false⟩
  let vidCap : ProcessingCapability :=
    if env.hasVideoDecoder then
      ⟨ProcessingEngine.webcodecs,
        env.codecResults.any fun r =>
          match r with
          | Except.ok true => true
          | _ => false⟩
    else ⟨ProcessingEngine.webcodecs, false⟩
  [imgCap, vidCap, ⟨ProcessingEngine.ffmpeg, true⟩]

/-- capabilities.find(c => c.engine === e)?.supported with ?? false. -/
def findCapSupported (caps : List ProcessingCapability)
    (e : ProcessingEngine) : Bool :=
  match caps.find? fun c => decide (c.engine = e) with
  | some c => c.supported
  | none => false

/-- selectOptimalEngine of part_014: an explicit user mode is returned
unconditionally; in auto mode capabilities are probed and the engine is
picked from the browser-reported top-level type. -/
def selectOptimalEngine (explicitMode : Option ProcessingEngine)
    (env : ProbeEnv) (fileTypeImage fileTypeVideo : Bool) : ProcessingEngine :=
  match explicitMode with
  | some e => e
  | none =>
    let caps := detectProcessingCapabilities env
    if fileTypeImage ∧ findCapSupported caps ProcessingEngine.imageDecoder = true
      then ProcessingEngine.imageDecoder
    else if fileTypeVideo ∧ findCapSupported caps ProcessingEngine.webcodecs = true
      then ProcessingEngine.webcodecs
    else ProcessingEngine.ffmpeg

/-- The inline auto-selection routing of detectAndSelect
(ProcessingController.tsx lines 89-99): tt is metadata.trueType with
file.type as fallback; capabilities are not consulted. -/
def autoRoute (tt fileType : String) : ProcessingEngine :=
  if tt = "image/webp" ∨ tt = "image/gif" ∨ tt = "image/apng" ∨
      tt = "image/png" then ProcessingEngine.imageDecoder
  else if tt = "video/mp4" ∨ tt = "video/webm" then ProcessingEngine.ffmpeg
  else if fileType.startsWith "image/" then ProcessingEngine.imageDecoder
  else ProcessingEngine.ffmpeg

/-- detectAndSelect of ProcessingController.tsx lines 79-112: the whole body
runs in a try whose catch selects ffmpeg and sets engineStatus to error; on
success the status becomes ready.  probeResult is the outcome of the awaited
detectProcessingCapabilities call (an Except.error models any rejection
escaping the probe); processingMode none means auto. -/
def detectAndSelect (probeResult : Except String (List ProcessingCapability))
    (processingMode : Option ProcessingEngine) (tt fileType : String)
    (env : ProbeEnv) : ProcessingEngine × EngineStatus :=
  match probeResult with
  | Except.error _ => (ProcessingEngine.ffmpeg, EngineStatus.error)
  | Except.ok _ =>
    match processingMode with
    | none => (autoRoute tt fileType, EngineStatus.ready)
    | some m =>
      (selectOptimalEngine (some m) env (fileType.startsWith "image/")
        (fileType.startsWith "video/"), EngineStatus.ready)

/-- Messages as seen by the controller handlers for the fallback claim:
frames carry their index field. -/
inductive CtrlMsg where
  | frameMsg (idx : Nat)
  | errorMsg
  | completeMsg (total : Nat)
deriving DecidableEq

/-- Controller state touched by the fallback path of
ProcessingController.tsx lines 226-297: the accumulated frames (their index
fields), the selected engine, the engine status, and whether the handler in
charge is already the fallback worker handler. -/
structure CtrlState where
  frames : List Nat
  engine : ProcessingEngine
  status : EngineStatus
  fellBack : Bool
deriving DecidableEq

/-- allowFallback of line 230: fallback is disallowed for webp/gif/apng. -/
def allowFallback (tt : String) : Bool :=
  !(tt = "image/webp" || tt = "image/gif" || tt = "image/apng")

/-- One message-handler step.  The primary handler appends each FRAME to the
frames state; on ERROR from the image-decoder engine with fallback allowed it
terminates the worker, switches the engine to ffmpeg and installs the
fallback handler WITHOUT clearing the accumulated frames; the fallback
handler also just appends FRAMEs.  COMPLETE sets the status to ready, a
non-fallback ERROR sets it to error. -/
def ctrlStep (tt : String) (st : CtrlState) (m : CtrlMsg) : CtrlState :=
  if st.fellBack then
    match m with
    | CtrlMsg.frameMsg i => { st with frames := st.frames ++ [i] }
    | CtrlMsg.completeMsg _ => { st with status := EngineStatus.ready }
    | CtrlMsg.errorMsg => { st with status := EngineStatus.error }
  else
    match m with
    | CtrlMsg.frameMsg i => { st with frames := st.frames ++ [i] }
    | CtrlMsg.completeMsg _ => { st with status := EngineStatus.ready }
    | CtrlMsg.errorMsg =>
      if st.engine = ProcessingEngine.imageDecoder ∧ allowFallback tt = true then
        { st with engine := ProcessingEngine.ffmpeg, fellBack := true }
      else { st with status := EngineStatus.error }

/-- A processing run that started on the image-decoder engine, folding the
incoming worker messages through the controller handlers. -/
def ctrlRun (tt : String) (msgs : List CtrlMsg) : CtrlState :=
  msgs.foldl (ctrlStep tt)
    ⟨[], ProcessingEngine.imageDecoder, EngineStatus.processing, false⟩

/-- Media kinds returned by sniffTrueType (estimate.ts). -/
inductive TrueType where
  | gif
  | apng
  | png
  | webp
  | mp4
  | webm
  | unknown
deriving DecidableEq

/-- The byte codes of the acTL chunk tag. -/
def acTLBytes : List Nat := [97, 99, 84, 76]

/-- ascii(i, n) of the sniffer: the n bytes starting at offset i (shorter
near the end of the buffer, in which case the string comparisons fail). -/
def bytesAt (buf : List Nat) (i n : Nat) : List Nat := (buf.drop i).take n

/-- The acTL scan of sniffTrueType: some i with 12 <= i and i + 7 <
buf.length has the tag at offset i + 4. -/
def hasAcTLWindow (buf : List Nat) : Bool :=
  (List.range buf.length).any fun i =>
    decide (12 ≤ i ∧ i + 7 < buf.length ∧ bytesAt buf (i + 4) 4 = acTLBytes)

/-- sniffTrueType of estimate.ts lines 135-161: reads the first 64 bytes and
pattern-matches the container magics in source order. -/
def sniffTrueType (fileBytes : List Nat) : TrueType :=
  let buf := fileBytes.take 64
  if bytesAt buf 0 4 = [71, 73, 70, 56] then TrueType.gif
  else if buf.head? = some 137 ∧ bytesAt buf 1 3 = [80, 78, 71] then
    (if hasAcTLWindow buf then TrueType.apng else TrueType.png)
  else if bytesAt buf 0 4 = [82, 73, 70, 70] ∧
      bytesAt buf 8 4 = [87, 69, 66, 80] then TrueType.webp
  else if bytesAt buf 4 4 = [102, 116, 121, 112] then TrueType.mp4
  else if bytesAt buf 0 4 = [26, 69, 223, 163] then TrueType.webm
  else TrueType.unknown

/-- One decoded VideoFrame surfaced to the WebCodecs worker output callback
(part_011 lines 80-179): the frame timestamp in ms (videoFrame.timestamp
divided by 1000), the value of the module cancelled flag at the moment the
callback fires, and whether the canvas/encode processing of this frame
succeeds (a failure is caught inside the callback, emits nothing and only
advances frameIndex). -/
structure WcDecodedFrame where
  timestampMs : Nat
  cancelledSeen : Bool
  processingOk : Bool

/-- The endTime filter of part_011 line 89: endTime truthy and timestamp
past it; none models a falsy endTime (no upper bound). -/
def wcPastEnd (endMs : Option Nat) (t : Nat) : Bool :=
  match endMs with
  | some e => decide (e < t)
  | none => false

/-- Progress percent of part_011 lines 156-166: estimatedTotal is
min(maxFrames, duration estimate), percent is min(round(done/total*100),
100).  A zero estimatedTotal gives Infinity in JS and hence 100 after the
min, written out explicitly because Nat division by zero is 0. -/
def wcPercent (done maxFrames durEstimate : Nat) : Nat :=
  if min maxFrames durEstimate = 0 then 100
  else min (jsRoundPercent done (min maxFrames durEstimate)) 100

/-- String(n).padStart(padLength, zero) of part_011 line 134: big-endian
digits left-padded with zeros to the given width (this worker uses
settings.naming.padLength where the other workers fix the width at 6). -/
def formatPad (width n : Nat) : List Nat :=
  List.replicate (width - (natDigitsLE n).length) 0 ++ (natDigitsLE n).reverse

/-- The WebCodecs output callback for one decoded frame (part_011 lines
80-179), as a step on (frameIndex, processedFrames, messages posted so far):
a frame arriving with the cancelled flag set, or outside the requested time
range, emits nothing; the nth-mode skip advances only frameIndex; a frame
arriving when processedFrames has reached settings.maxFrames is dropped (the
cap check of line 102); a caught processing failure advances frameIndex
only; otherwise FRAME (index processedFrames, filename number
processedFrames + 1) and PROGRESS are posted and processedFrames advances.
skipFrames, startMs, endMs, padLength and durEstimate are the values the
worker derives at lines 73-76 and 156-158 from the sampling mode, nth,
startTime, endTime, naming.padLength and the metadata. -/
def wcOutputStep (s : ExtractionSettings) (skipFrames startMs : Nat)
    (endMs : Option Nat) (padLength durEstimate : Nat)
    (st : Nat × Nat × List Msg) (f : WcDecodedFrame) : Nat × Nat × List Msg :=
  match st with
  | (frameIndex, processedFrames, msgs) =>
    if f.cancelledSeen = true then (frameIndex, processedFrames, msgs)
    else if f.timestampMs < startMs ∨ wcPastEnd endMs f.timestampMs = true then
      (frameIndex, processedFrames, msgs)
    else if 0 < skipFrames ∧ frameIndex % (skipFrames + 1) ≠ 0 then
      (frameIndex + 1, processedFrames, msgs)
    else if s.maxFrames ≤ processedFrames then (frameIndex, processedFrames, msgs)
    else if f.processingOk = false then (frameIndex + 1, processedFrames, msgs)
    else
      (frameIndex + 1, processedFrames + 1,
        msgs ++ [Msg.frame processedFrames (formatPad padLength (processedFrames + 1)),
          Msg.progress (processedFrames + 1)
            (wcPercent (processedFrames + 1) s.maxFrames durEstimate)])

/-- Trace of one WebCodecs EXTRACT run (part_011): the output callback folds
over the stream of decoded frames; after decoder.flush, when the job was not
cancelled and at least one frame was produced, the archive parts and the
COMPLETE are posted (lines 237-287; the windowing is the same code as the
ffmpeg worker split, so ffmpegPartMsgs is reused; the number of collected
frames equals processedFrames since frames.push happens exactly on the
emitting path). -/
def wcExtractTrace (s : ExtractionSettings) (skipFrames startMs : Nat)
    (endMs : Option Nat) (padLength durEstimate : Nat)
    (decoded : List WcDecodedFrame) (cancelledAtFlush : Bool) : List Msg :=
  match decoded.foldl (wcOutputStep s skipFrames startMs endMs padLength durEstimate)
      (0, 0, []) with
  | (_, processedFrames, msgs) =>
    if cancelledAtFlush = false ∧ 0 < processedFrames then
      msgs ++ ffmpegPartMsgs processedFrames s ++ [Msg.complete processedFrames]
    else msgs

/-! Helper lemmas. -/

theorem digitsValLE_cons (d : Nat) (ds : List Nat) :
    digitsValLE (d :: ds) = d + 10 * digitsValLE ds := rfl

theorem digitsValLE_natDigitsAux (fuel : Nat) :
    ∀ n, n ≤ fuel → digitsValLE (natDigitsAux fuel n) = n := by
  induction fuel with
  | zero =>
    intro n hn
    interval_cases n
    rfl
  | succ fuel ih =>
    intro n hn
    match n with
    | 0 => rfl
    | m + 1 =>
      have hdiv : (m + 1) / 10 ≤ fuel := by
        have := Nat.div_lt_self (Nat.succ_pos m) (by omega : 1 < 10)
        omega
      have hrec := ih ((m + 1) / 10) hdiv
      have hmd := Nat.mod_add_div (m + 1) 10
      rw [natDigitsAux, digitsValLE_cons, hrec]
      omega

theorem digitsValLE_natDigitsLE (n : Nat) : digitsValLE (natDigitsLE n) = n :=
  digitsValLE_natDigitsAux n n (Nat.le_refl n)

theorem digitsValLE_replicate_zero (k : Nat) :
    digitsValLE (List.replicate k 0) = 0 := by
  induction k with
  | zero => rfl
  | succ k ih => rw [List.replicate_succ, digitsValLE_cons, ih]

theorem digitsValLE_append_zeros (xs : List Nat) (k : Nat) :
    digitsValLE (xs ++ List.replicate k 0) = digitsValLE xs := by
  induction xs with
  | nil =>
    rw [List.nil_append, digitsValLE_replicate_zero]
    rfl
  | cons x xs ih => rw [List.cons_append, digitsValLE_cons, digitsValLE_cons, ih]

theorem parseBE_format6 (n : Nat) : parseBE (format6 n) = n := by
  unfold parseBE format6
  rw [List.reverse_append, List.reverse_reverse, List.reverse_replicate]
  rw [digitsValLE_append_zeros, digitsValLE_natDigitsLE]

theorem frameIndices_nil : frameIndices [] = [] := rfl

theorem frameIndices_append (a b : List Msg) :
    frameIndices (a ++ b) = frameIndices a ++ frameIndices b := by
  simp [frameIndices, List.filterMap_append]

theorem partRanges_append (a b : List Msg) :
    partRanges (a ++ b) = partRanges a ++ partRanges b := by
  simp [partRanges, List.filterMap_append]

theorem frameIndices_eq_nil_of_no_frames (t : List Msg)
    (h : ∀ m ∈ t, m.isFrame = false) : frameIndices t = [] := by
  induction t with
  | nil => rfl
  | cons a t ih =>
    have ha := h a (List.mem_cons_self a t)
    have ht : ∀ m ∈ t, m.isFrame = false := fun m hm => h m (List.mem_cons_of_mem a hm)
    cases a with
    | frame i d => simp [Msg.isFrame] at ha
    | partReady a b c d => simpa [frameIndices] using ih ht
    | complete k => simpa [frameIndices] using ih ht
    | progress x y => simpa [frameIndices] using ih ht
    | error e => simpa [frameIndices] using ih ht

theorem partRanges_eq_nil_of_no_parts (t : List Msg)
    (h : ∀ m ∈ t, m.isPartReady = false) : partRanges t = [] := by
  induction t with
  | nil => rfl
  | cons a t ih =>
    have ha := h a (List.mem_cons_self a t)
    have ht : ∀ m ∈ t, m.isPartReady = false := fun m hm => h m (List.mem_cons_of_mem a hm)
    cases a with
    | partReady a b c d => simp [Msg.isPartReady] at ha
    | frame i d => simpa [partRanges] using ih ht
    | complete k => simpa [partRanges] using ih ht
    | progress x y => simpa [partRanges] using ih ht
    | error e => simpa [partRanges] using ih ht

theorem countComplete_eq_zero (t : List Msg)
    (h : ∀ m ∈ t, m.isComplete = false) : countComplete t = 0 := by
  unfold countComplete
  rw [List.countP_eq_zero]
  intro m hm
  simp [h m hm]

theorem ffmpegFrameMsgs_no_parts (m : Nat) :
    ∀ x ∈ ffmpegFrameMsgs m, x.isPartReady = false := by
  intro x hx
  obtain ⟨i, _, rfl⟩ := List.mem_map.1 hx
  rfl

theorem ffmpegFrameMsgs_all_frames (m : Nat) :
    ∀ x ∈ ffmpegFrameMsgs m, x.isFrame = true := by
  intro x hx
  obtain ⟨i, _, rfl⟩ := List.mem_map.1 hx
  rfl

theorem ffmpegFrameMsgs_no_complete (m : Nat) :
    ∀ x ∈ ffmpegFrameMsgs m, x.isComplete = false := by
  intro x hx
  obtain ⟨i, _, rfl⟩ := List.mem_map.1 hx
  rfl

theorem frameIndices_ffmpegFrameMsgs (m : Nat) :
    frameIndices (ffmpegFrameMsgs m) = (List.range m).map (fun i => i + 1) := by
  induction m with
  | zero => rfl
  | succ m ih =>
    simp only [ffmpegFrameMsgs, List.range_succ, List.map_append] at ih ⊢
    rw [frameIndices_append, ih]
    simp [frameIndices, parseBE_format6]

theorem partRanges_cons_partReady (a b c d : Nat) (t : List Msg) :
    partRanges (Msg.partReady a b c d :: t) = (a, b, c, d) :: partRanges t := rfl

theorem frameIndices_cons_frame (i : Nat) (ds : List Nat) (t : List Msg) :
    frameIndices (Msg.frame i ds :: t) = i :: frameIndices t := rfl

theorem ffmpegPartMsgs_no_frames (n : Nat) (s : ExtractionSettings) :
    ∀ x ∈ ffmpegPartMsgs n s, x.isFrame = false := by
  intro x hx
  unfold ffmpegPartMsgs at hx
  match hs : s.split with
  | none =>
    rw [hs] at hx
    simp at hx
    rw [hx]
    rfl
  | some sp =>
    rw [hs] at hx
    dsimp only at hx
    by_cases h : sp.enabled = true ∧ 0 < sp.framesPerPart
    · rw [if_pos h] at hx
      obtain ⟨p, _, rfl⟩ := List.mem_map.1 hx
      rfl
    · rw [if_neg h] at hx
      simp at hx
      rw [hx]
      rfl

theorem partRanges_map_partReady {α : Type}
    (l : List α) (f : α → Nat × Nat × Nat × Nat) :
    partRanges (l.map fun x =>
        Msg.partReady (f x).1 (f x).2.1 (f x).2.2.1 (f x).2.2.2)
      = l.map f := by
  induction l with
  | nil => rfl
  | cons a l ih =>
    rw [List.map_cons, partRanges_cons_partReady, ih, List.map_cons]

theorem frameIndices_imgDecProgressMsgs (i N : Nat) :
    frameIndices (imgDecProgressMsgs i N) = [] := by
  unfold imgDecProgressMsgs
  by_cases h : (i + 1) % 2 = 0 ∨ i = N - 1
  · rw [if_pos h]
    rfl
  · rw [if_neg h]
    rfl

theorem frameIndices_imgDecLoop (o : Nat → DecodeOutcome) (st : Nat → Bool)
    (N : Nat) (hok : ∀ i, o i = DecodeOutcome.ok) :
    ∀ fuel i wd, frameIndices (imgDecLoop o st N fuel i wd) = List.range' i fuel := by
  intro fuel
  induction fuel with
  | zero =>
    intro i wd
    rfl
  | succ fuel ih =>
    intro i wd
    rw [imgDecLoop, hok i]
    rw [frameIndices_append]
    by_cases hst : st i = true ∧ wd = true
    · rw [if_pos hst]
      rw [frameIndices_cons_frame, frameIndices_append, frameIndices_imgDecProgressMsgs, ih]
      simp [frameIndices, List.range'_succ]
    · rw [if_neg hst]
      rw [frameIndices_cons_frame, frameIndices_append, frameIndices_imgDecProgressMsgs, ih]
      simp [frameIndices, List.range'_succ]

theorem complete_mem_imgDecLoop (o : Nat → DecodeOutcome) (st : Nat → Bool)
    (N : Nat) (hok : ∀ i, o i = DecodeOutcome.ok) :
    ∀ fuel i wd, Msg.complete N ∈ imgDecLoop o st N fuel i wd := by
  intro fuel
  induction fuel with
  | zero =>
    intro i wd
    exact List.mem_singleton.2 rfl
  | succ fuel ih =>
    intro i wd
    rw [imgDecLoop, hok i]
    refine List.mem_append_right _ ?_
    exact List.mem_cons_of_mem _ (List.mem_append_right _ (ih (i + 1) _))

/-- Claim C1 counterexample: a job of the FFmpeg adapter that completes
normally with totalFrames = 1 emits its single FRAME with index 1 (parsed
from ffmpeg's 1-based output filename frame_000001), so the emitted indices
are [1], not 0..N-1 = [0]. -/
theorem c1_counterexample :
    Msg.complete 1 ∈ ffmpegExtractTrace 1 ⟨0, none⟩ none
    ∧ frameIndices (ffmpegExtractTrace 1 ⟨0, none⟩ none) = [1]
    ∧ frameIndices (ffmpegExtractTrace 1 ⟨0, none⟩ none) ≠ List.range 1 := by
  refine ⟨by decide, by decide, by decide⟩

/-- Claim C1 amended: for every job that completes normally the FRAME indices
are strictly increasing and contiguous, but only the ImageDecoder adapter
emits them 0-based as exactly 0..N-1; the FFmpeg adapter parses them from
the 1-based frame_%06d filenames and emits exactly 1..N, where N is the
totalFrames of the COMPLETE message in both cases. -/
theorem c1_frame_indices_amended
    (natural : Nat) (s : ExtractionSettings)
    (hn : execOutputCount natural s.maxFrames ≠ 0)
    (inp : ImgDecInput)
    (hs : inp.supports = true) (hm : imgDecMimeOk inp.mime = true)
    (hc : imgDecFrameCount inp ≠ 0) (hw : inp.width ≠ 0) (hh : inp.height ≠ 0)
    (hctx : inp.ctxOk = true)
    (hok : ∀ i, inp.outcomes i = DecodeOutcome.ok) :
    (frameIndices (ffmpegExtractTrace natural s none)
        = (List.range (execOutputCount natural s.maxFrames)).map (fun i => i + 1)
      ∧ Msg.complete (execOutputCount natural s.maxFrames)
          ∈ ffmpegExtractTrace natural s none)
    ∧ (frameIndices (imgDecExtract inp) = List.range (imgDecFrameCount inp)
      ∧ Msg.complete (imgDecFrameCount inp) ∈ imgDecExtract inp) := by
  constructor
  · unfold ffmpegExtractTrace
    rw [if_neg hn]
    constructor
    · rw [frameIndices_append, frameIndices_append, frameIndices_ffmpegFrameMsgs]
      rw [frameIndices_eq_nil_of_no_frames _ (ffmpegPartMsgs_no_frames _ _)]
      simp [frameIndices]
    · simp
  · unfold imgDecExtract
    rw [if_neg (by simp [hs]), if_neg (by simp [hm]), if_neg hc,
      if_neg (by simp [hw, hh]), if_neg (by simp [hctx])]
    constructor
    · rw [frameIndices_imgDecLoop _ _ _ hok]
      exact (List.range_eq_range' (imgDecFrameCount inp)).symm ▸ rfl
    · exact complete_mem_imgDecLoop _ _ _ hok _ 0 true

/-- Witness for c1_frame_indices_amended at a 2-frame FFmpeg job and a
2-frame ImageDecoder job. -/
theorem c1_frame_indices_amended_witness :
    (frameIndices (ffmpegExtractTrace 2 ⟨0, none⟩ none)
        = (List.range (execOutputCount 2 0)).map (fun i => i + 1)
      ∧ Msg.complete (execOutputCount 2 0) ∈ ffmpegExtractTrace 2 ⟨0, none⟩ none)
    ∧ (frameIndices (imgDecExtract ⟨true, true, "image/gif", some 2, 0, 1, 1,
          ⟨0, none⟩, fun _ => DecodeOutcome.ok, fun _ => false⟩)
        = List.range 2
      ∧ Msg.complete 2 ∈ imgDecExtract ⟨true, true, "image/gif", some 2, 0, 1, 1,
          ⟨0, none⟩, fun _ => DecodeOutcome.ok, fun _ => false⟩) :=
  c1_frame_indices_amended 2 ⟨0, none⟩ (by decide)
    ⟨true, true, "image/gif", some 2, 0, 1, 1, ⟨0, none⟩,
      fun _ => DecodeOutcome.ok, fun _ => false⟩
    rfl (by decide) (by decide) (by decide) (by decide) rfl (fun _ => rfl)

theorem partRanges_map_partReady4 {α : Type}
    (l : List α) (f1 f2 f3 f4 : α → Nat) :
    partRanges (l.map fun x => Msg.partReady (f1 x) (f2 x) (f3 x) (f4 x))
      = l.map fun x => (f1 x, f2 x, f3 x, f4 x) := by
  induction l with
  | nil => rfl
  | cons a l ih =>
    rw [List.map_cons, partRanges_cons_partReady, ih, List.map_cons]

theorem partRanges_singleton_complete (n : Nat) :
    partRanges [Msg.complete n] = [] := rfl

/-- Claim C3: for a split-enabled job with framesPerPart = K >= 1 producing
N >= 1 frames, exactly ceil(N/K) PART_READY messages are emitted; the p-th
(1-based) covers startFrame (p-1)K to endFrame min(pK, N)-1, every part but
possibly the last holds exactly K frames, and the ranges partition 0..N-1. -/
theorem c3_split_partition (natural maxF K : Nat) (aD : Bool)
    (h1 : 1 ≤ execOutputCount natural maxF) (h2 : 1 ≤ K) :
    partRanges (ffmpegExtractTrace natural ⟨maxF, some ⟨true, K, aD⟩⟩ none)
      = (List.range (ceilDiv (execOutputCount natural maxF) K)).map
          (fun p => (p + 1, ceilDiv (execOutputCount natural maxF) K, p * K,
            min (p * K + K) (execOutputCount natural maxF) - 1))
    ∧ (partRanges (ffmpegExtractTrace natural ⟨maxF, some ⟨true, K, aD⟩⟩ none)).length
        = ceilDiv (execOutputCount natural maxF) K
    ∧ (∀ p, p + 1 < ceilDiv (execOutputCount natural maxF) K →
        (min (p * K + K) (execOutputCount natural maxF) - 1) - p * K + 1 = K)
    ∧ (∀ j, j < execOutputCount natural maxF →
        ∃! p, p < ceilDiv (execOutputCount natural maxF) K ∧ p * K ≤ j
          ∧ j ≤ min (p * K + K) (execOutputCount natural maxF) - 1) := by
  have hmain : partRanges (ffmpegExtractTrace natural ⟨maxF, some ⟨true, K, aD⟩⟩ none)
      = (List.range (ceilDiv (execOutputCount natural maxF) K)).map
          (fun p => (p + 1, ceilDiv (execOutputCount natural maxF) K, p * K,
            min (p * K + K) (execOutputCount natural maxF) - 1)) := by
    unfold ffmpegExtractTrace
    dsimp only
    rw [if_neg (by omega)]
    rw [partRanges_append, partRanges_append, partRanges_singleton_complete]
    rw [partRanges_eq_nil_of_no_parts _ (ffmpegFrameMsgs_no_parts _)]
    unfold ffmpegPartMsgs
    dsimp only
    rw [if_pos ⟨rfl, h2⟩]
    rw [partRanges_map_partReady4]
    simp
  refine ⟨hmain, ?_, ?_, ?_⟩
  · rw [hmain, List.length_map, List.length_range]
  · -- every part except possibly the last holds exactly K frames
    intro p hp
    have hTK : K * ceilDiv (execOutputCount natural maxF) K
        ≤ execOutputCount natural maxF + K - 1 := by
      unfold ceilDiv
      have hle := Nat.div_mul_le_self (execOutputCount natural maxF + K - 1) K
      have hcm : K * ((execOutputCount natural maxF + K - 1) / K)
          = ((execOutputCount natural maxF + K - 1) / K) * K := Nat.mul_comm _ _
      omega
    have hmul : K * (p + 2) ≤ K * ceilDiv (execOutputCount natural maxF) K :=
      Nat.mul_le_mul_left K (by omega)
    have hexp : K * (p + 2) = K * p + 2 * K := by ring
    have hcomm : p * K = K * p := Nat.mul_comm p K
    omega
  · -- the ranges partition 0..N-1 exactly once
    intro j hj
    have hK0 : 0 < K := h2
    have hdm := Nat.div_add_mod (execOutputCount natural maxF + K - 1) K
    have hmlt := Nat.mod_lt (execOutputCount natural maxF + K - 1) hK0
    have hceil : ceilDiv (execOutputCount natural maxF) K
        = (execOutputCount natural maxF + K - 1) / K := rfl
    have hnle : execOutputCount natural maxF
        ≤ K * ceilDiv (execOutputCount natural maxF) K := by
      rw [hceil]
      omega
    have hjdm := Nat.div_add_mod j K
    have hjmlt := Nat.mod_lt j hK0
    refine ⟨j / K, ⟨?_, ?_, ?_⟩, ?_⟩
    · rw [Nat.div_lt_iff_lt_mul hK0]
      calc j < execOutputCount natural maxF := hj
        _ ≤ K * ceilDiv (execOutputCount natural maxF) K := hnle
        _ = ceilDiv (execOutputCount natural maxF) K * K := Nat.mul_comm _ _
    · exact Nat.div_mul_le_self j K
    · have hcomm : j / K * K = K * (j / K) := Nat.mul_comm _ _
      omega
    · rintro q ⟨hq1, hq2, hq3⟩
      have hqlt : j < q * K + K := by omega
      have h5 : q ≤ j / K := (Nat.le_div_iff_mul_le hK0).2 hq2
      have h6 : j / K < q + 1 := by
        rw [Nat.div_lt_iff_lt_mul hK0]
        have : (q + 1) * K = q * K + K := by ring
        omega
      omega

/-- Witness for c3_split_partition at the concrete scenario of the spec:
K = 250 and N = 613 give exactly 3 parts with ranges 0-249, 250-499,
500-612. -/
theorem c3_split_partition_witness :
    partRanges (ffmpegExtractTrace 613 ⟨0, some ⟨true, 250, true⟩⟩ none)
        = [(1, 3, 0, 249), (2, 3, 250, 499), (3, 3, 500, 612)]
    ∧ (∀ p, p + 1 < 3 → (min (p * 250 + 250) 613 - 1) - p * 250 + 1 = 250)
    ∧ (∀ j, j < 613 →
        ∃! p, p < 3 ∧ p * 250 ≤ j ∧ j ≤ min (p * 250 + 250) 613 - 1) := by
  have h := c3_split_partition 613 0 250 true (by decide) (by decide)
  exact ⟨h.1.trans (by decide), h.2.2.1, h.2.2.2⟩

/-- Claim C4 counterexample: split enabled with framesPerPart = 1 on a job of
2 frames.  The claim requires the PART_READY of window 1 to be emitted
before the frame of window 2 is processed, i.e. some PART_READY with
partIndex 1 precedes the FRAME parsed from frame_000002 in the trace; in the
actual trace every FRAME precedes every PART_READY, so no such pair of
positions exists. -/
theorem c4_counterexample :
    ¬ ∃ i j : Fin (ffmpegExtractTrace 2 ⟨0, some ⟨true, 1, true⟩⟩ none).length,
      (i : Nat) < (j : Nat)
      ∧ (ffmpegExtractTrace 2 ⟨0, some ⟨true, 1, true⟩⟩ none).get i
          = Msg.partReady 1 2 0 0
      ∧ (ffmpegExtractTrace 2 ⟨0, some ⟨true, 1, true⟩⟩ none).get j
          = Msg.frame 2 (format6 2) := by
  decide

/-- Claim C4 amended: the ffmpeg worker finalizes and emits every archive
part only after the whole read loop has finished: every trace splits into a
prefix without any PART_READY (the FRAME messages) followed by a suffix
without any FRAME (the PART_READY messages and the COMPLETE), so each
PART_READY is emitted after all frames, not as its window fills. -/
theorem c4_parts_after_loop_amended (natural : Nat) (s : ExtractionSettings)
    (cp : Option Nat) :
    ∃ A B, ffmpegExtractTrace natural s cp = A ++ B
      ∧ (∀ m ∈ A, m.isPartReady = false)
      ∧ (∀ m ∈ B, m.isFrame = false) := by
  unfold ffmpegExtractTrace
  dsimp only
  by_cases hn : execOutputCount natural s.maxFrames = 0
  · rw [if_pos hn]
    refine ⟨[], [Msg.error "No frames were extracted"], rfl, by simp, ?_⟩
    intro m hm
    rw [List.mem_singleton.1 hm]
    rfl
  · rw [if_neg hn]
    match cp with
    | some k =>
      exact ⟨ffmpegFrameMsgs (min k (execOutputCount natural s.maxFrames)), [],
        (List.append_nil _).symm, ffmpegFrameMsgs_no_parts _, by simp⟩
    | none =>
      refine ⟨ffmpegFrameMsgs (execOutputCount natural s.maxFrames),
        ffmpegPartMsgs (execOutputCount natural s.maxFrames) s
          ++ [Msg.complete (execOutputCount natural s.maxFrames)],
        by rw [List.append_assoc], ffmpegFrameMsgs_no_parts _, ?_⟩
      intro m hm
      rcases List.mem_append.1 hm with h | h
      · exact ffmpegPartMsgs_no_frames _ s m h
      · rw [List.mem_singleton.1 h]
        rfl

/-- Witness for c4_parts_after_loop_amended at the 2-frame split job of the
counterexample. -/
theorem c4_parts_after_loop_amended_witness :
    ∃ A B, ffmpegExtractTrace 2 ⟨0, some ⟨true, 1, true⟩⟩ none = A ++ B
      ∧ (∀ m ∈ A, m.isPartReady = false)
      ∧ (∀ m ∈ B, m.isFrame = false) :=
  c4_parts_after_loop_amended 2 ⟨0, some ⟨true, 1, true⟩⟩ none

/-- Claim C8: once the ffmpeg worker observes the cancelled flag (set by a
CANCEL message) at a loop boundary after k completed iterations, it emits no
COMPLETE, no PART_READY, and every FRAME of the whole trace was emitted
before the observation point: every emitted index is at most
min k n where n is the number of extracted files. -/
theorem c8_cancel_suppresses (natural : Nat) (s : ExtractionSettings)
    (k i : Nat) (ds : List Nat)
    (hmem : Msg.frame i ds ∈ ffmpegExtractTrace natural s (some k)) :
    countComplete (ffmpegExtractTrace natural s (some k)) = 0
    ∧ partRanges (ffmpegExtractTrace natural s (some k)) = []
    ∧ i ≤ min k (execOutputCount natural s.maxFrames) := by
  unfold ffmpegExtractTrace at hmem ⊢
  dsimp only at hmem ⊢
  by_cases hn : execOutputCount natural s.maxFrames = 0
  · rw [if_pos hn] at hmem
    simp at hmem
  · rw [if_neg hn] at hmem ⊢
    refine ⟨countComplete_eq_zero _ (ffmpegFrameMsgs_no_complete _),
      partRanges_eq_nil_of_no_parts _ (ffmpegFrameMsgs_no_parts _), ?_⟩
    obtain ⟨p, hp, heq⟩ := List.mem_map.1 hmem
    have hi : parseBE (format6 (p + 1)) = i := by
      injection heq
    rw [parseBE_format6] at hi
    have hplt : p < min k (execOutputCount natural s.maxFrames) :=
      List.mem_range.1 hp
    omega

/-- Witness for c8_cancel_suppresses: cancellation observed after one frame
of a 3-frame job. -/
theorem c8_cancel_suppresses_witness :
    countComplete (ffmpegExtractTrace 3 ⟨0, none⟩ (some 1)) = 0
    ∧ partRanges (ffmpegExtractTrace 3 ⟨0, none⟩ (some 1)) = []
    ∧ 1 ≤ min 1 (execOutputCount 3 0) :=
  c8_cancel_suppresses 3 ⟨0, none⟩ 1 1 (format6 1) (by decide)

/-- Claim C9 counterexample: the ImageDecoder worker applies no maxFrames
cap at all.  A job whose settings carry maxFrames = 1 but whose animation
has 2 frames emits 2 FRAME messages, exceeding the cap. -/
theorem c9_counterexample :
    (⟨true, true, "image/gif", some 2, 0, 1, 1, ⟨1, none⟩,
        fun _ => DecodeOutcome.ok, fun _ => false⟩ : ImgDecInput).settings.maxFrames
      = 1
    ∧ (frameIndices (imgDecExtract ⟨true, true, "image/gif", some 2, 0, 1, 1,
        ⟨1, none⟩, fun _ => DecodeOutcome.ok, fun _ => false⟩)).length = 2
    ∧ ¬ ((frameIndices (imgDecExtract ⟨true, true, "image/gif", some 2, 0, 1, 1,
        ⟨1, none⟩, fun _ => DecodeOutcome.ok, fun _ => false⟩)).length ≤ 1) := by
  decide

theorem wc_frame_count_le (s : ExtractionSettings) (skipF startMs : Nat)
    (endMs : Option Nat) (padL durE : Nat) :
    ∀ (decoded : List WcDecodedFrame) (fi pf : Nat) (msgs : List Msg),
      (frameIndices msgs).length = pf → pf ≤ s.maxFrames →
      (frameIndices (decoded.foldl
          (wcOutputStep s skipF startMs endMs padL durE) (fi, pf, msgs)).2.2).length
        ≤ s.maxFrames := by
  intro decoded
  induction decoded with
  | nil =>
    intro fi pf msgs h1 h2
    rw [List.foldl_nil]
    dsimp only
    rw [h1]
    exact h2
  | cons f decoded ih =>
    intro fi pf msgs h1 h2
    rw [List.foldl_cons]
    unfold wcOutputStep
    dsimp only
    by_cases hc1 : f.cancelledSeen = true
    · rw [if_pos hc1]
      exact ih fi pf msgs h1 h2
    · rw [if_neg hc1]
      by_cases hc2 : f.timestampMs < startMs ∨ wcPastEnd endMs f.timestampMs = true
      · rw [if_pos hc2]
        exact ih fi pf msgs h1 h2
      · rw [if_neg hc2]
        by_cases hc3 : 0 < skipF ∧ fi % (skipF + 1) ≠ 0
        · rw [if_pos hc3]
          exact ih (fi + 1) pf msgs h1 h2
        · rw [if_neg hc3]
          by_cases hc4 : s.maxFrames ≤ pf
          · rw [if_pos hc4]
            exact ih fi pf msgs h1 h2
          · rw [if_neg hc4]
            by_cases hc5 : f.processingOk = false
            · rw [if_pos hc5]
              exact ih (fi + 1) pf msgs h1 h2
            · rw [if_neg hc5]
              apply ih
              · rw [frameIndices_append, List.length_append, h1]
                rfl
              · omega

/-- Claim C9 amended: the FFmpeg adapter emits at most settings.maxFrames
FRAME messages whenever maxFrames is positive (the -frames:v cap), at every
cancellation point of the run; the WebCodecs adapter checks the cap before
every emission (part_011 line 102) and so never exceeds settings.maxFrames,
for every decoded stream, time filter, skip filter and flush state; the
ImageDecoder adapter ignores settings.maxFrames entirely and emits one FRAME
per decoded frame, so the cap does not hold for it. -/
theorem c9_max_frames_amended (natural : Nat) (s : ExtractionSettings)
    (cp : Option Nat) (hmax : 0 < s.maxFrames)
    (inp : ImgDecInput)
    (hs : inp.supports = true) (hm : imgDecMimeOk inp.mime = true)
    (hc : imgDecFrameCount inp ≠ 0) (hw : inp.width ≠ 0) (hh : inp.height ≠ 0)
    (hctx : inp.ctxOk = true)
    (hok : ∀ i, inp.outcomes i = DecodeOutcome.ok)
    (s2 : ExtractionSettings) (skipF startMs : Nat) (endMs : Option Nat)
    (padL durE : Nat) (decoded : List WcDecodedFrame) (cfl : Bool) :
    (frameIndices (ffmpegExtractTrace natural s cp)).length ≤ s.maxFrames
    ∧ (frameIndices
        (wcExtractTrace s2 skipF startMs endMs padL durE decoded cfl)).length
        ≤ s2.maxFrames
    ∧ (frameIndices (imgDecExtract inp)).length = imgDecFrameCount inp := by
  have hcap : execOutputCount natural s.maxFrames ≤ s.maxFrames := by
    unfold execOutputCount
    rw [if_pos (by omega)]
    omega
  refine ⟨?_, ?_, ?_⟩
  · unfold ffmpegExtractTrace
    dsimp only
    by_cases hn : execOutputCount natural s.maxFrames = 0
    · rw [if_pos hn]
      show (frameIndices [Msg.error "No frames were extracted"]).length ≤ _
      rw [show frameIndices [Msg.error "No frames were extracted"] = [] from rfl]
      simp
    · rw [if_neg hn]
      match cp with
      | some k =>
        rw [frameIndices_ffmpegFrameMsgs, List.length_map, List.length_range]
        omega
      | none =>
        rw [frameIndices_append, frameIndices_append, frameIndices_ffmpegFrameMsgs]
        rw [frameIndices_eq_nil_of_no_frames _ (ffmpegPartMsgs_no_frames _ _)]
        rw [show frameIndices [Msg.complete (execOutputCount natural s.maxFrames)]
          = [] from rfl]
        rw [List.append_nil, List.append_nil, List.length_map, List.length_range]
        omega
  · have hinv := wc_frame_count_le s2 skipF startMs endMs padL durE decoded 0 0 []
      rfl (Nat.zero_le _)
    unfold wcExtractTrace
    rcases hfold : decoded.foldl
        (wcOutputStep s2 skipF startMs endMs padL durE) (0, 0, [])
      with ⟨fi, pf, msgs⟩
    rw [hfold] at hinv
    dsimp only at hinv ⊢
    by_cases hfl : cfl = false ∧ 0 < pf
    · rw [if_pos hfl]
      rw [frameIndices_append, frameIndices_append]
      rw [frameIndices_eq_nil_of_no_frames _ (ffmpegPartMsgs_no_frames _ _)]
      rw [show frameIndices [Msg.complete pf] = [] from rfl]
      rw [List.append_nil, List.append_nil]
      exact hinv
    · rw [if_neg hfl]
      exact hinv
  · unfold imgDecExtract
    rw [if_neg (by simp [hs]), if_neg (by simp [hm]), if_neg hc,
      if_neg (by simp [hw, hh]), if_neg (by simp [hctx])]
    rw [frameIndices_imgDecLoop _ _ _ hok]
    simp

/-- Witness for c9_max_frames_amended: a 3-frame ffmpeg job capped at
maxFrames = 2, a 2-frame WebCodecs decode stream capped at maxFrames = 1
(only one FRAME is emitted), and a 2-frame ImageDecoder job. -/
theorem c9_max_frames_amended_witness :
    (frameIndices (ffmpegExtractTrace 3 ⟨2, none⟩ none)).length ≤ 2
    ∧ (frameIndices (wcExtractTrace ⟨1, none⟩ 0 0 none 6 1000
        [⟨0, false, true⟩, ⟨5, false, true⟩] false)).length ≤ 1
    ∧ (frameIndices (imgDecExtract ⟨true, true, "image/gif", some 2, 0, 1, 1,
        ⟨2, none⟩, fun _ => DecodeOutcome.ok, fun _ => false⟩)).length = 2 :=
  c9_max_frames_amended 3 ⟨2, none⟩ none (by decide)
    ⟨true, true, "image/gif", some 2, 0, 1, 1, ⟨2, none⟩,
      fun _ => DecodeOutcome.ok, fun _ => false⟩
    rfl (by decide) (by decide) (by decide) (by decide) rfl (fun _ => rfl)
    ⟨1, none⟩ 0 0 none 6 1000 [⟨0, false, true⟩, ⟨5, false, true⟩] false

theorem countTerminal_imgDecProgressMsgs (i N : Nat) :
    countTerminal (imgDecProgressMsgs i N) = 0 := by
  unfold imgDecProgressMsgs
  by_cases h : (i + 1) % 2 = 0 ∨ i = N - 1
  · rw [if_pos h]
    rfl
  · rw [if_neg h]
    rfl

theorem countComplete_imgDecProgressMsgs (i N : Nat) :
    countComplete (imgDecProgressMsgs i N) = 0 := by
  unfold imgDecProgressMsgs
  by_cases h : (i + 1) % 2 = 0 ∨ i = N - 1
  · rw [if_pos h]
    rfl
  · rw [if_neg h]
    rfl

theorem countTerminal_imgDecLoop_no_stall (o : Nat → DecodeOutcome)
    (st : Nat → Bool) (N : Nat) (hns : ∀ i, st i = false) :
    ∀ fuel i wd, countTerminal (imgDecLoop o st N fuel i wd) = 1 := by
  intro fuel
  induction fuel with
  | zero =>
    intro i wd
    rfl
  | succ fuel ih =>
    intro i wd
    rw [imgDecLoop, if_neg (by simp [hns i])]
    rw [List.nil_append]
    cases ho : o i with
    | noImage => rfl
    | throws m => rfl
    | ok =>
      show countTerminal (Msg.frame i (format6 i)
        :: (imgDecProgressMsgs i N ++ imgDecLoop o st N fuel (i + 1) (wd && !(st i)))) = 1
      have h1 := countTerminal_imgDecProgressMsgs i N
      have h2 := ih (i + 1) (wd && !(st i))
      simp only [countTerminal, List.countP_cons, List.countP_append] at h1 h2 ⊢
      rw [h1, h2]
      rfl

theorem countComplete_imgDecLoop_le_one (o : Nat → DecodeOutcome)
    (st : Nat → Bool) (N : Nat) :
    ∀ fuel i wd, countComplete (imgDecLoop o st N fuel i wd) ≤ 1 := by
  intro fuel
  induction fuel with
  | zero =>
    intro i wd
    exact Nat.le_refl 1
  | succ fuel ih =>
    intro i wd
    rw [imgDecLoop]
    have hstall : countComplete
        (if st i = true ∧ wd = true then
          [Msg.error "ImageDecoder stalled (watchdog)"] else []) = 0 := by
      by_cases h : st i = true ∧ wd = true
      · rw [if_pos h]
        rfl
      · rw [if_neg h]
        rfl
    cases ho : o i with
    | noImage =>
      simp only [countComplete, List.countP_append] at hstall ⊢
      rw [hstall]
      simp [List.countP_cons, Msg.isComplete]
    | throws m =>
      simp only [countComplete, List.countP_append] at hstall ⊢
      rw [hstall]
      simp [List.countP_cons, Msg.isComplete]
    | ok =>
      have h1 := countComplete_imgDecProgressMsgs i N
      have h2 := ih (i + 1) (wd && !(st i))
      simp only [countComplete, List.countP_append, List.countP_cons] at hstall h1 h2 ⊢
      rw [hstall, h1]
      have h3 : ((if (Msg.frame i (format6 i)).isComplete = true then 1 else 0) : Nat)
          = 0 := rfl
      omega

/-- Claim C7 counterexample: a 1-frame ImageDecoder job whose only decode
stalls past the watchdog timeout and then succeeds.  The watchdog posts its
ERROR but does not stop the loop, so the same adapter lifetime later posts
COMPLETE: two terminal messages, an ERROR followed by a COMPLETE. -/
theorem c7_counterexample :
    (imgDecExtract ⟨true, true, "image/gif", some 1, 0, 1, 1, ⟨0, none⟩,
        fun _ => DecodeOutcome.ok, fun _ => true⟩).head?
      = some (Msg.error "ImageDecoder stalled (watchdog)")
    ∧ Msg.complete 1 ∈ imgDecExtract ⟨true, true, "image/gif", some 1, 0, 1, 1,
        ⟨0, none⟩, fun _ => DecodeOutcome.ok, fun _ => true⟩
    ∧ countTerminal (imgDecExtract ⟨true, true, "image/gif", some 1, 0, 1, 1,
        ⟨0, none⟩, fun _ => DecodeOutcome.ok, fun _ => true⟩) = 2 := by
  decide

/-- Claim C7 amended: in a lifetime in which the stall watchdog never fires,
the ImageDecoder worker emits exactly one terminal message (one COMPLETE or
one ERROR, never both); in every lifetime at most one COMPLETE is emitted.
A watchdog stall ERROR, however, does not terminate the run and may be
followed by a COMPLETE (see the counterexample); a CANCEL closes the worker
immediately so that nothing further is emitted. -/
theorem c7_terminal_amended (inp inp2 : ImgDecInput)
    (hns : ∀ i, inp.stalls i = false) :
    countTerminal (imgDecExtract inp) = 1
    ∧ countComplete (imgDecExtract inp2) ≤ 1 := by
  constructor
  · unfold imgDecExtract
    split
    · rfl
    · split
      · rfl
      · split
        · rfl
        · split
          · rfl
          · split
            · rfl
            · exact countTerminal_imgDecLoop_no_stall _ _ _ hns _ 0 true
  · unfold imgDecExtract
    split
    · exact Nat.zero_le 1
    · split
      · exact Nat.zero_le 1
      · split
        · exact Nat.zero_le 1
        · split
          · exact Nat.zero_le 1
          · split
            · exact Nat.zero_le 1
            · exact countComplete_imgDecLoop_le_one _ _ _ _ 0 true

/-- Witness for c7_terminal_amended at a stall-free 2-frame job. -/
theorem c7_terminal_amended_witness :
    countTerminal (imgDecExtract ⟨true, true, "image/gif", some 2, 0, 1, 1,
        ⟨0, none⟩, fun _ => DecodeOutcome.ok, fun _ => false⟩) = 1
    ∧ countComplete (imgDecExtract ⟨true, true, "image/gif", some 2, 0, 1, 1,
        ⟨0, none⟩, fun _ => DecodeOutcome.ok, fun _ => false⟩) ≤ 1 :=
  c7_terminal_amended
    ⟨true, true, "image/gif", some 2, 0, 1, 1, ⟨0, none⟩,
      fun _ => DecodeOutcome.ok, fun _ => false⟩
    ⟨true, true, "image/gif", some 2, 0, 1, 1, ⟨0, none⟩,
      fun _ => DecodeOutcome.ok, fun _ => false⟩
    (fun _ => rfl)

theorem ctrlStep_frameMsg (tt : String) (fr : List Nat)
    (en : ProcessingEngine) (stt : EngineStatus) (fb : Bool) (i : Nat) :
    ctrlStep tt ⟨fr, en, stt, fb⟩ (CtrlMsg.frameMsg i) = ⟨fr ++ [i], en, stt, fb⟩ := by
  cases fb <;> rfl

theorem ctrlStep_error_fallback (tt : String) (fr : List Nat)
    (hallow : allowFallback tt = true) :
    ctrlStep tt ⟨fr, ProcessingEngine.imageDecoder, EngineStatus.processing, false⟩
        CtrlMsg.errorMsg
      = ⟨fr, ProcessingEngine.ffmpeg, EngineStatus.processing, true⟩ := by
  unfold ctrlStep
  simp [hallow]

theorem foldl_ctrl_frames (tt : String) (P : List Nat) :
    ∀ (fr : List Nat) (en : ProcessingEngine) (stt : EngineStatus) (fb : Bool),
      List.foldl (ctrlStep tt) ⟨fr, en, stt, fb⟩ (P.map CtrlMsg.frameMsg)
        = ⟨fr ++ P, en, stt, fb⟩ := by
  induction P with
  | nil =>
    intro fr en stt fb
    simp
  | cons p P ih =>
    intro fr en stt fb
    rw [List.map_cons, List.foldl_cons, ctrlStep_frameMsg, ih]
    simp

/-- Claim C2 counterexample: an image-decoder run on an APNG (trueType
image/png, fallback allowed) emits one frame with index 0, then errors; the
controller falls back to the ffmpeg engine, which emits one frame.  The
final caller-visible frames state is [0, 1]: the frame emitted by the failed
engine (index 0) is still present, not discarded. -/
theorem c2_counterexample :
    (ctrlRun "image/png" [CtrlMsg.frameMsg 0, CtrlMsg.errorMsg,
        CtrlMsg.frameMsg 1, CtrlMsg.completeMsg 1]).frames = [0, 1]
    ∧ 0 ∈ (ctrlRun "image/png" [CtrlMsg.frameMsg 0, CtrlMsg.errorMsg,
        CtrlMsg.frameMsg 1, CtrlMsg.completeMsg 1]).frames
    ∧ (ctrlRun "image/png" [CtrlMsg.frameMsg 0, CtrlMsg.errorMsg,
        CtrlMsg.frameMsg 1, CtrlMsg.completeMsg 1]).fellBack = true := by
  decide

/-- Claim C2 amended: on an engine fallback the controller keeps every frame
already emitted by the failed image-decoder engine and appends the fallback
ffmpeg engine's frames after them (the frames state is never cleared by the
fallback path), so the final caller-visible frame list is the concatenation
P ++ F of both engines' emissions; the fallback engine does start a fresh
sequence of its own (its indices are parsed from its own 1-based output
filenames), but nothing is discarded. -/
theorem c2_fallback_amended (tt : String) (P F : List Nat)
    (hallow : allowFallback tt = true) :
    (ctrlRun tt (P.map CtrlMsg.frameMsg
        ++ CtrlMsg.errorMsg :: F.map CtrlMsg.frameMsg)).frames = P ++ F
    ∧ (ctrlRun tt (P.map CtrlMsg.frameMsg
        ++ CtrlMsg.errorMsg :: F.map CtrlMsg.frameMsg)).engine
          = ProcessingEngine.ffmpeg
    ∧ (ctrlRun tt (P.map CtrlMsg.frameMsg
        ++ CtrlMsg.errorMsg :: F.map CtrlMsg.frameMsg)).fellBack = true := by
  unfold ctrlRun
  rw [List.foldl_append, foldl_ctrl_frames, List.foldl_cons,
    ctrlStep_error_fallback tt _ hallow, foldl_ctrl_frames]
  simp

/-- Witness for c2_fallback_amended: one frame from the failed engine, one
from the fallback engine. -/
theorem c2_fallback_amended_witness :
    (ctrlRun "image/png" ([0].map CtrlMsg.frameMsg
        ++ CtrlMsg.errorMsg :: [1].map CtrlMsg.frameMsg)).frames = [0] ++ [1]
    ∧ (ctrlRun "image/png" ([0].map CtrlMsg.frameMsg
        ++ CtrlMsg.errorMsg :: [1].map CtrlMsg.frameMsg)).engine
          = ProcessingEngine.ffmpeg
    ∧ (ctrlRun "image/png" ([0].map CtrlMsg.frameMsg
        ++ CtrlMsg.errorMsg :: [1].map CtrlMsg.frameMsg)).fellBack = true :=
  c2_fallback_amended "image/png" [0] [1] (by decide)

/-- Claim C5 counterexample: when the capability probe rejects, the
controller catch selects the universal ffmpeg engine but sets engineStatus
to error, not ready — the job does not proceed to the Ready state. -/
theorem c5_counterexample :
    detectAndSelect (Except.error "probe failed") none "video/mp4" "video/mp4"
        ⟨false, Except.ok false, false, []⟩
      = (ProcessingEngine.ffmpeg, EngineStatus.error)
    ∧ (detectAndSelect (Except.error "probe failed") none "video/mp4" "video/mp4"
        ⟨false, Except.ok false, false, []⟩).2 ≠ EngineStatus.ready := by
  exact ⟨rfl, by decide⟩

/-- Claim C5 amended: engine selection is total — every probe failure is
caught, resolves the engine to the universal ffmpeg engine, and the probe
itself always reports ffmpeg as supported — but on probe failure the
controller enters the error status rather than proceeding to Ready. -/
theorem c5_probe_failure_amended (e : String) (pm : Option ProcessingEngine)
    (tt ft : String) (env env2 : ProbeEnv) :
    detectAndSelect (Except.error e) pm tt ft env
        = (ProcessingEngine.ffmpeg, EngineStatus.error)
    ∧ ∃ c ∈ detectProcessingCapabilities env2,
        c.engine = ProcessingEngine.ffmpeg ∧ c.supported = true := by
  refine ⟨rfl, ⟨⟨ProcessingEngine.ffmpeg, true⟩, ?_, rfl, rfl⟩⟩
  unfold detectProcessingCapabilities
  simp

/-- Claim C6 counterexample: in automatic mode, even in an environment whose
capability probe confirms WebCodecs support, a video/mp4 file is routed to
the universal ffmpeg engine, not to the hardware WebCodecs decoder. -/
theorem c6_counterexample :
    (detectAndSelect
        (Except.ok (detectProcessingCapabilities
          ⟨true, Except.ok true, true, [Except.ok true]⟩))
        none "video/mp4" "video/mp4"
        ⟨true, Except.ok true, true, [Except.ok true]⟩).1
      = ProcessingEngine.ffmpeg
    ∧ findCapSupported
        (detectProcessingCapabilities ⟨true, Except.ok true, true, [Except.ok true]⟩)
        ProcessingEngine.webcodecs = true
    ∧ ProcessingEngine.ffmpeg ≠ ProcessingEngine.webcodecs := by
  decide

/-- Claim C6 amended: in automatic mode the controller maps the sniffed true
type as follows, without consulting any capability probe: gif, apng, webp
and png go to the image decoder; mp4 and webm go unconditionally to the
universal ffmpeg engine (never to WebCodecs); any other true type goes to
the image decoder when the browser-reported type starts with image/, and to
the universal ffmpeg engine otherwise. -/
theorem c6_auto_route_amended (pr : List ProcessingCapability) (env : ProbeEnv)
    (tt ft : String)
    (hnot : tt ∉ ["image/webp", "image/gif", "image/apng", "image/png",
      "video/mp4", "video/webm"]) :
    detectAndSelect (Except.ok pr) none "image/gif" ft env
        = (ProcessingEngine.imageDecoder, EngineStatus.ready)
    ∧ detectAndSelect (Except.ok pr) none "image/apng" ft env
        = (ProcessingEngine.imageDecoder, EngineStatus.ready)
    ∧ detectAndSelect (Except.ok pr) none "image/webp" ft env
        = (ProcessingEngine.imageDecoder, EngineStatus.ready)
    ∧ detectAndSelect (Except.ok pr) none "image/png" ft env
        = (ProcessingEngine.imageDecoder, EngineStatus.ready)
    ∧ detectAndSelect (Except.ok pr) none "video/mp4" ft env
        = (ProcessingEngine.ffmpeg, EngineStatus.ready)
    ∧ detectAndSelect (Except.ok pr) none "video/webm" ft env
        = (ProcessingEngine.ffmpeg, EngineStatus.ready)
    ∧ (ft.startsWith "image/" = true →
        detectAndSelect (Except.ok pr) none tt ft env
          = (ProcessingEngine.imageDecoder, EngineStatus.ready))
    ∧ (ft.startsWith "image/" = false →
        detectAndSelect (Except.ok pr) none tt ft env
          = (ProcessingEngine.ffmpeg, EngineStatus.ready)) := by
  simp only [List.mem_cons, List.not_mem_nil, or_false, not_or] at hnot
  obtain ⟨h1, h2, h3, h4, h5, h6⟩ := hnot
  refine ⟨rfl, rfl, rfl, rfl, rfl, rfl, ?_, ?_⟩
  · intro hft
    unfold detectAndSelect autoRoute
    rw [if_neg (by simp [h1, h2, h3, h4]), if_neg (by simp [h5, h6]), if_pos hft]
  · intro hft
    unfold detectAndSelect autoRoute
    rw [if_neg (by simp [h1, h2, h3, h4]), if_neg (by simp [h5, h6]),
      if_neg (by simp [hft])]

/-- Witness for c6_auto_route_amended at an octet-stream upload whose
browser-reported type is not an image type. -/
theorem c6_auto_route_amended_witness :
    detectAndSelect (Except.ok []) none "image/gif" "application/octet-stream"
        ⟨false, Except.ok false, false, []⟩
        = (ProcessingEngine.imageDecoder, EngineStatus.ready)
    ∧ detectAndSelect (Except.ok []) none "image/apng" "application/octet-stream"
        ⟨false, Except.ok false, false, []⟩
        = (ProcessingEngine.imageDecoder, EngineStatus.ready)
    ∧ detectAndSelect (Except.ok []) none "image/webp" "application/octet-stream"
        ⟨false, Except.ok false, false, []⟩
        = (ProcessingEngine.imageDecoder, EngineStatus.ready)
    ∧ detectAndSelect (Except.ok []) none "image/png" "application/octet-stream"
        ⟨false, Except.ok false, false, []⟩
        = (ProcessingEngine.imageDecoder, EngineStatus.ready)
    ∧ detectAndSelect (Except.ok []) none "video/mp4" "application/octet-stream"
        ⟨false, Except.ok false, false, []⟩
        = (ProcessingEngine.ffmpeg, EngineStatus.ready)
    ∧ detectAndSelect (Except.ok []) none "video/webm" "application/octet-stream"
        ⟨false, Except.ok false, false, []⟩
        = (ProcessingEngine.ffmpeg, EngineStatus.ready)
    ∧ (("application/octet-stream".startsWith "image/") = true →
        detectAndSelect (Except.ok []) none "application/unknown"
          "application/octet-stream" ⟨false, Except.ok false, false, []⟩
          = (ProcessingEngine.imageDecoder, EngineStatus.ready))
    ∧ (("application/octet-stream".startsWith "image/") = false →
        detectAndSelect (Except.ok []) none "application/unknown"
          "application/octet-stream" ⟨false, Except.ok false, false, []⟩
          = (ProcessingEngine.ffmpeg, EngineStatus.ready)) :=
  c6_auto_route_amended [] ⟨false, Except.ok false, false, []⟩
    "application/unknown" "application/octet-stream" (by decide)

theorem bytesAt_take64 (bs : List Nat) (i n : Nat) (h : i + n ≤ 64) :
    bytesAt (bs.take 64) i n = bytesAt bs i n := by
  unfold bytesAt
  rw [List.drop_take, List.take_take]
  congr 1
  omega

/-- Claim C10: sniffTrueType inspects only the first 64 bytes of the file
and is a deterministic function of them; consequently a PNG whose acTL tag
has no occurrence below byte offset 64 (in particular, one whose acTL chunk
begins at or after offset 64) is classified as static image/png, never
image/apng. -/
theorem c10_sniff_window (bs bs2 : List Nat)
    (hmagic0 : bs.head? = some 137)
    (hmagic : bytesAt bs 1 3 = [80, 78, 71])
    (hacTL : ∀ j, j < 64 → bytesAt bs j 4 ≠ acTLBytes) :
    sniffTrueType bs2 = sniffTrueType (bs2.take 64)
    ∧ sniffTrueType bs = TrueType.png := by
  constructor
  · simp [sniffTrueType, List.take_take]
  · cases bs with
    | nil => simp at hmagic0
    | cons a tl =>
      have ha : a = 137 := by simpa using hmagic0
      subst ha
      have hgif : ¬ (bytesAt ((137 :: tl).take 64) 0 4 = [71, 73, 70, 56]) := by
        intro h
        rw [bytesAt_take64 _ _ _ (by omega)] at h
        simp [bytesAt] at h
      have hpng : ((137 :: tl).take 64).head? = some 137
          ∧ bytesAt ((137 :: tl).take 64) 1 3 = [80, 78, 71] := by
        refine ⟨rfl, ?_⟩
        rw [bytesAt_take64 _ _ _ (by omega)]
        exact hmagic
      have hactl : hasAcTLWindow ((137 :: tl).take 64) = false := by
        unfold hasAcTLWindow
        rw [List.any_eq_false]
        intro i hi
        simp only [decide_eq_true_eq]
        rintro ⟨h12, h7, heq⟩
        have hlen : ((137 :: tl).take 64).length ≤ 64 := List.length_take_le 64 _
        rw [bytesAt_take64 _ _ _ (by omega)] at heq
        exact hacTL (i + 4) (by omega) heq
      unfold sniffTrueType
      rw [if_neg hgif, if_pos hpng,
        if_neg (by rw [hactl]; simp)]

/-- Witness for c10_sniff_window: a 68-byte PNG whose acTL tag sits exactly
at offsets 64..67, outside the sniffed window. -/
theorem c10_sniff_window_witness :
    sniffTrueType ([137, 80, 78, 71] ++ List.replicate 60 7 ++ acTLBytes)
        = sniffTrueType (([137, 80, 78, 71] ++ List.replicate 60 7 ++ acTLBytes).take 64)
    ∧ sniffTrueType ([137, 80, 78, 71] ++ List.replicate 60 7 ++ acTLBytes)
        = TrueType.png :=
  c10_sniff_window ([137, 80, 78, 71] ++ List.replicate 60 7 ++ acTLBytes)
    ([137, 80, 78, 71] ++ List.replicate 60 7 ++ acTLBytes)
    (by decide) (by decide)
    (by decide)
